import Mathlib

/-
Verification of the noisysockets transport core against its specification.

The Go sources are shallowly embedded: byte strings (keys, hashes,
ciphertexts, 32-byte arrays) are modelled as opaque blobs of type `Bytes`
(a `Nat` code), with the all-zero array identified with `0`; wall-clock
instants and durations (`time.Time` / `time.Duration`, nanoseconds) are
modelled as `Int`; Go maps are modelled as association lists.  The
cryptographic primitives (BLAKE2s, the BLAKE2s-HMAC KDF chain, Curve25519
and ChaCha20-Poly1305) live in external libraries, so they are abstracted
into a `Crypto` record of function parameters; every theorem below is
universally quantified over that record, i.e. holds for any choice of
primitives.  Control flow, state commits and field updates are translated
line by line from internal/transport/noise-protocol.go.
-/

namespace Noisy

/-- Opaque byte-string blobs (keys, hashes, ciphertexts); the all-zero
array is identified with `0`. -/
abbrev Bytes := Nat

/-- Wall-clock instants and durations in nanoseconds (Go `time.Time`,
`time.Duration`). -/
abbrev Time := Int

/-! ## Wire-format constants (noise-protocol.go) -/

/-- types.NoisePublicKeySize (32-byte Curve25519 points). -/
def NoisePublicKeySize : Nat := 32

/-- poly1305.TagSize. -/
def poly1305TagSize : Nat := 16

/-- tai64n.TimestampSize (12-byte TAI64N timestamps). -/
def tai64nTimestampSize : Nat := 12

/-- blake2s.Size128 (16-byte truncated BLAKE2s output, MAC size). -/
def blake2sSize128 : Nat := 16

/-- blake2s.Size (32-byte BLAKE2s output). -/
def blake2sSize : Nat := 32

/-- chacha20poly1305.NonceSizeX (24-byte XChaCha20 nonce). -/
def chacha20poly1305NonceSizeX : Nat := 24

def MessageInitiationType : Nat := 1
def MessageResponseType : Nat := 2
def MessageCookieReplyType : Nat := 3
def MessageTransportType : Nat := 4

/-- size of handshake initiation message. -/
def MessageInitiationSize : Nat := 148

/-- size of response message. -/
def MessageResponseSize : Nat := 92

/-- size of cookie reply message. -/
def MessageCookieReplySize : Nat := 64

/-- size of data preceding content in transport message. -/
def MessageTransportHeaderSize : Nat := 16

/-- size of empty transport message. -/
def MessageTransportSize : Nat := MessageTransportHeaderSize + poly1305TagSize

def MessageTransportOffsetReceiver : Nat := 4
def MessageTransportOffsetCounter : Nat := 8
def MessageTransportOffsetContent : Nat := 16

/-- Byte count of the initiation wire layout:
type(4) + sender(4) + ephemeral(32) + static_ct(32+16) + ts_ct(12+16)
+ MAC1(16) + MAC2(16), following the fields of `MessageInitiation`. -/
def messageInitiationLayout : Nat :=
  4 + 4 + NoisePublicKeySize + (NoisePublicKeySize + poly1305TagSize) +
    (tai64nTimestampSize + poly1305TagSize) + blake2sSize128 + blake2sSize128

/-- Byte count of the response wire layout:
type(4) + sender(4) + receiver(4) + ephemeral(32) + empty_ct(0+16)
+ MAC1(16) + MAC2(16), following the fields of `MessageResponse`. -/
def messageResponseLayout : Nat :=
  4 + 4 + 4 + NoisePublicKeySize + poly1305TagSize + blake2sSize128 + blake2sSize128

/-- Byte count of the cookie-reply wire layout:
type(4) + receiver(4) + nonce(24) + cookie_ct(16+16), following the
fields of `MessageCookieReply`. -/
def messageCookieReplyLayout : Nat :=
  4 + 4 + chacha20poly1305NonceSizeX + (blake2sSize128 + poly1305TagSize)

/-- Byte count of the transport header layout: type(4) + receiver(4)
+ counter(8); the content follows at offset 16. -/
def messageTransportHeaderLayout : Nat := 4 + 4 + 8

/-! ## Association-list maps (Go maps / the index table / peer tables) -/

def lookupA {α β : Type} [DecidableEq α] : α → List (α × β) → Option β
  | _, [] => none
  | k, (k', v) :: rest => if k = k' then some v else lookupA k rest

def insertA {α β : Type} [DecidableEq α] : α → β → List (α × β) → List (α × β)
  | k, v, [] => [(k, v)]
  | k, v, (k', v') :: rest =>
      if k = k' then (k, v) :: rest else (k', v') :: insertA k v rest

def eraseA {α β : Type} [DecidableEq α] : α → List (α × β) → List (α × β)
  | _, [] => []
  | k, (k', v) :: rest => if k = k' then rest else (k', v) :: eraseA k rest

/-! ## Configuration (config/v1alpha1, src/unnamed/part_000) -/

def ApiVersion : String := "noisysockets.github.com/v1alpha1"

/-- PeerConfig is the configuration for a known wireguard peer. -/
structure PeerConfig where
  name : String := ""
  publicKey : String := ""
  endpoint : String := ""
  ips : List String := []
  defaultGateway : Bool := false
deriving DecidableEq, Repr

/-- Config is the configuration for a NoisySockets network. -/
structure Config where
  name : String := ""
  listenPort : Nat := 0
  privateKey : String := ""
  ips : List String := []
  dnsServers : List String := []
  peers : List PeerConfig := []
deriving DecidableEq, Repr

def Config.GetKind (_ : Config) : String := "Config"

def Config.GetAPIVersion (_ : Config) : String := ApiVersion

def GetConfigByKind (kind : String) : Except String Config :=
  if kind = "Config" then .ok {}
  else .error ("unsupported kind: " ++ kind)

/-! ## Peer directory (src/unnamed/part_002) -/

/-- Remote static public keys, as opaque blobs. -/
abbrev PubKey := Nat

/-- IP addresses (netip.Addr), as opaque codes. -/
abbrev Addr := Nat

structure PeerDirectory where
  peerNames : List (String × PubKey)
  peerAddresses : List (PubKey × List Addr)
  fromPeerAddress : List (Addr × PubKey)
deriving DecidableEq, Repr

/-- The for-loop body of peerDirectory.AddPeer: register each address in
turn into fromPeerAddress, stopping with the offending address when one
is already present. -/
def addPeerLoop (pk : PubKey) :
    List (Addr × PubKey) → List Addr → List (Addr × PubKey) × Option Addr
  | m, [] => (m, none)
  | m, a :: rest =>
      if (lookupA a m).isSome then (m, some a)
      else addPeerLoop pk (insertA a pk m) rest

/-- peerDirectory.AddPeer: record the name and address-list mappings
unconditionally, then register each address, failing on the first
address already in use.  The returned `Option Addr` is the error (the
duplicate address) when present. -/
def addPeer (pd : PeerDirectory) (name : String) (pk : PubKey)
    (addrs : List Addr) : PeerDirectory × Option Addr :=
  let names := if name ≠ "" then insertA name pk pd.peerNames else pd.peerNames
  let pas := insertA pk addrs pd.peerAddresses
  let r := addPeerLoop pk pd.fromPeerAddress addrs
  ({ peerNames := names, peerAddresses := pas, fromPeerAddress := r.1 }, r.2)

/-! ## Abstract cryptographic primitives

BLAKE2s, the HKDF chain, Curve25519 and ChaCha20-Poly1305 live in
external libraries (and in repository packages outside the sample), so
they are abstracted as parameters; the handshake AEAD always uses the
all-zero nonce, so nonces are omitted. -/

structure Crypto where
  /-- InitialHash (BLAKE2s of InitialChainKey and the identifier). -/
  initialHash : Bytes
  /-- InitialChainKey (BLAKE2s of the construction string). -/
  initialChainKey : Bytes
  /-- mixHash: BLAKE2s of the concatenation of the two arguments. -/
  hash2 : Bytes → Bytes → Bytes
  /-- KDF1 (used by mixKey). -/
  kdf1 : Bytes → Bytes → Bytes
  /-- KDF2: two 32-byte outputs. -/
  kdf2 : Bytes → Bytes → Bytes × Bytes
  /-- KDF3: three 32-byte outputs. -/
  kdf3 : Bytes → Bytes → Bytes × Bytes × Bytes
  /-- sharedSecret: Curve25519 DH of a private and a public key; the
  call sites in noise-protocol.go handle an error return, modelled as
  `none`. -/
  dh : Bytes → Bytes → Option Bytes
  /-- NoisePrivateKey.PublicKey. -/
  pub : Bytes → Bytes
  /-- aead.Seal with the zero nonce: key, plaintext, additional data. -/
  aeadSeal : Bytes → Bytes → Bytes → Bytes
  /-- aead.Open with the zero nonce: key, ciphertext, additional data;
  `none` on authentication failure. -/
  aeadOpen : Bytes → Bytes → Bytes → Option Bytes

/-- Go `nil` byte slice (the empty KDF input / empty plaintext). -/
def emptyBytes : Bytes := 0

/-- Modelled from the spec: TAI64N timestamps (internal/tai64n, not in
the sample) are 12-byte monotonic timestamps compared bytewise;
`Timestamp.After` is the strict order on them. -/
def tsAfter (a b : Bytes) : Bool := b < a

/-- Go `time.Time.After`: strict order on instants. -/
def timeAfter (a b : Time) : Bool := b < a

/-- Modelled from the spec: HandshakeInitiationRate (a transport
constant absent from the sample) is 1/50 ms, i.e. 50 ms = 5·10⁷ ns,
limiting initiation consumption to 20 per second per peer. -/
def HandshakeInitationRate : Time := 50000000

/-! ## Handshake state (noise-protocol.go) -/

inductive HandshakeState where
  | zeroed
  | initiationCreated
  | initiationConsumed
  | responseCreated
  | responseConsumed
deriving DecidableEq, Repr

structure Handshake where
  state : HandshakeState
  hash : Bytes
  chainKey : Bytes
  presharedKey : Bytes
  localEphemeral : Bytes
  localIndex : Nat
  remoteIndex : Nat
  remoteStatic : PubKey
  remoteEphemeral : PubKey
  precomputedStaticStatic : Bytes
  lastTimestamp : Bytes
  lastInitiationConsumption : Time
  lastSentHandshake : Time
deriving DecidableEq, Repr

structure StaticIdentity where
  privateKey : Bytes
  publicKey : PubKey
deriving DecidableEq, Repr

structure Peer where
  handshake : Handshake
  isRunning : Bool
deriving DecidableEq, Repr

structure MessageInitiation where
  type : Nat
  sender : Nat
  ephemeral : PubKey
  static : Bytes
  timestamp : Bytes
  mac1 : Bytes
  mac2 : Bytes
deriving DecidableEq, Repr

structure MessageResponse where
  type : Nat
  sender : Nat
  receiver : Nat
  ephemeral : PubKey
  empty : Bytes
  mac1 : Bytes
  mac2 : Bytes
deriving DecidableEq, Repr

structure Keypair where
  sendKey : Bytes
  recvKey : Bytes
  created : Time
  isInitiator : Bool
  localIndex : Nat
  remoteIndex : Nat
deriving DecidableEq, Repr

/-- The three per-peer keypair slots. -/
structure Keypairs where
  previous : Option Keypair
  current : Option Keypair
  next : Option Keypair
deriving DecidableEq, Repr

/-- Errors returned by the create-message routines. -/
inductive CreateErr where
  | dhError
  | invalidPublicKey
  | wrongState
deriving DecidableEq, Repr

/-! ## Noise handshake routines (noise-protocol.go)

The routines mutate handshakes in place in Go; here each returns the
updated state explicitly.  Index-table side effects are modelled on an
explicit table mapping 32-bit indices to opaque owner tags; the fresh
index drawn by NewIndexForHandshake, the fresh ephemeral private key and
the tai64n.Now() timestamp are passed as arguments since they come from
randomness and the clock. -/

/-- Transport.CreateMessageInitiation.  Returns the handshake as mutated
so far (the Go code mutates in place on every path), the updated index
table, and the message or error. -/
def createMessageInitiation (c : Crypto) (sid : StaticIdentity)
    (eph ts : Bytes) (newIndex ownerId : Nat) (table : List (Nat × Nat))
    (hs : Handshake) :
    Handshake × List (Nat × Nat) × Except CreateErr MessageInitiation :=
  let hs1 := { hs with hash := c.initialHash, chainKey := c.initialChainKey,
                       localEphemeral := eph }
  let hs2 := { hs1 with hash := c.hash2 hs1.hash hs1.remoteStatic }
  let ephPub := c.pub eph
  let hs3 := { hs2 with chainKey := c.kdf1 hs2.chainKey ephPub,
                        hash := c.hash2 hs2.hash ephPub }
  match c.dh eph hs3.remoteStatic with
  | none => (hs3, table, .error .dhError)
  | some ss =>
    let ck := (c.kdf2 hs3.chainKey ss).1
    let key := (c.kdf2 hs3.chainKey ss).2
    let staticCt := c.aeadSeal key sid.publicKey hs3.hash
    let hs4 := { hs3 with chainKey := ck, hash := c.hash2 hs3.hash staticCt }
    if hs4.precomputedStaticStatic = 0 then
      (hs4, table, .error .invalidPublicKey)
    else
      let ck2 := (c.kdf2 hs4.chainKey hs4.precomputedStaticStatic).1
      let key2 := (c.kdf2 hs4.chainKey hs4.precomputedStaticStatic).2
      let tsCt := c.aeadSeal key2 ts hs4.hash
      let hs5 := { hs4 with chainKey := ck2 }
      let table1 := insertA newIndex ownerId (eraseA hs5.localIndex table)
      let hs6 := { hs5 with localIndex := newIndex }
      let hs7 := { hs6 with hash := c.hash2 hs6.hash tsCt,
                            state := .initiationCreated }
      (hs7, table1,
        .ok { type := MessageInitiationType, sender := newIndex,
              ephemeral := ephPub, static := staticCt, timestamp := tsCt,
              mac1 := 0, mac2 := 0 })

/-- Transport.ConsumeMessageInitiation.  `peers` is the transport's
peer table keyed by static public key (LookupPeer); `now` is the
wall clock.  Returns the updated peer table and the static key of the
consumed peer (`none` on rejection, in which case the table is the
input unchanged). -/
def consumeMessageInitiation (c : Crypto) (sid : StaticIdentity)
    (peers : List (PubKey × Peer)) (now : Time) (msg : MessageInitiation) :
    List (PubKey × Peer) × Option PubKey :=
  if msg.type ≠ MessageInitiationType then (peers, none) else
  let hash := c.hash2 (c.hash2 c.initialHash sid.publicKey) msg.ephemeral
  let chainKey := c.kdf1 c.initialChainKey msg.ephemeral
  match c.dh sid.privateKey msg.ephemeral with
  | none => (peers, none)
  | some ss =>
    let ck1 := (c.kdf2 chainKey ss).1
    let key1 := (c.kdf2 chainKey ss).2
    match c.aeadOpen key1 msg.static hash with
    | none => (peers, none)
    | some peerPK =>
      let hash1 := c.hash2 hash msg.static
      match lookupA peerPK peers with
      | none => (peers, none)
      | some peer =>
        if peer.isRunning = false then (peers, none) else
        let hs := peer.handshake
        if hs.precomputedStaticStatic = 0 then (peers, none) else
        let ck2 := (c.kdf2 ck1 hs.precomputedStaticStatic).1
        let key2 := (c.kdf2 ck1 hs.precomputedStaticStatic).2
        match c.aeadOpen key2 msg.timestamp hash1 with
        | none => (peers, none)
        | some timestamp =>
          let hash2 := c.hash2 hash1 msg.timestamp
          if ! tsAfter timestamp hs.lastTimestamp then (peers, none)
          else if now - hs.lastInitiationConsumption ≤ HandshakeInitationRate
            then (peers, none)
          else
            let hs' := { hs with
              hash := hash2
              chainKey := ck2
              remoteIndex := msg.sender
              remoteEphemeral := msg.ephemeral
              lastTimestamp :=
                if tsAfter timestamp hs.lastTimestamp then timestamp
                else hs.lastTimestamp
              lastInitiationConsumption :=
                if timeAfter now hs.lastInitiationConsumption then now
                else hs.lastInitiationConsumption
              state := .initiationConsumed }
            (insertA peerPK { peer with handshake := hs' } peers, some peerPK)

/-- Transport.CreateMessageResponse. -/
def createMessageResponse (c : Crypto) (eph : Bytes)
    (newIndex ownerId : Nat) (table : List (Nat × Nat)) (hs : Handshake) :
    Handshake × List (Nat × Nat) × Except CreateErr MessageResponse :=
  if hs.state ≠ .initiationConsumed then (hs, table, .error .wrongState) else
  let table1 := insertA newIndex ownerId (eraseA hs.localIndex table)
  let hs1 := { hs with localIndex := newIndex }
  let ephPub := c.pub eph
  let hs2 := { hs1 with localEphemeral := eph,
                        hash := c.hash2 hs1.hash ephPub,
                        chainKey := c.kdf1 hs1.chainKey ephPub }
  match c.dh eph hs2.remoteEphemeral with
  | none => (hs2, table1, .error .dhError)
  | some ss1 =>
  let hs3 := { hs2 with chainKey := c.kdf1 hs2.chainKey ss1 }
  match c.dh eph hs3.remoteStatic with
  | none => (hs3, table1, .error .dhError)
  | some ss2 =>
  let hs4 := { hs3 with chainKey := c.kdf1 hs3.chainKey ss2 }
  let ck := (c.kdf3 hs4.chainKey hs4.presharedKey).1
  let tau := (c.kdf3 hs4.chainKey hs4.presharedKey).2.1
  let key := (c.kdf3 hs4.chainKey hs4.presharedKey).2.2
  let hs5 := { hs4 with chainKey := ck, hash := c.hash2 hs4.hash tau }
  let emptyCt := c.aeadSeal key emptyBytes hs5.hash
  let hs6 := { hs5 with hash := c.hash2 hs5.hash emptyCt,
                        state := .responseCreated }
  (hs6, table1,
    .ok { type := MessageResponseType, sender := newIndex,
          receiver := hs.remoteIndex, ephemeral := ephPub,
          empty := emptyCt, mac1 := 0, mac2 := 0 })

/-- The per-handshake body of Transport.ConsumeMessageResponse: the
state check, the three-way DH transcript re-derivation and the
transcript authentication, returning the committed handshake on
success. -/
def consumeMessageResponseHs (c : Crypto) (sid : StaticIdentity)
    (hs : Handshake) (msg : MessageResponse) : Option Handshake :=
  if hs.state ≠ .initiationCreated then none else
  let hash := c.hash2 hs.hash msg.ephemeral
  let chainKey := c.kdf1 hs.chainKey msg.ephemeral
  match c.dh hs.localEphemeral msg.ephemeral with
  | none => none
  | some ss1 =>
  let ck1 := c.kdf1 chainKey ss1
  match c.dh sid.privateKey msg.ephemeral with
  | none => none
  | some ss2 =>
  let ck2 := c.kdf1 ck1 ss2
  let ck3 := (c.kdf3 ck2 hs.presharedKey).1
  let tau := (c.kdf3 ck2 hs.presharedKey).2.1
  let key := (c.kdf3 ck2 hs.presharedKey).2.2
  let hash1 := c.hash2 hash tau
  match c.aeadOpen key msg.empty hash1 with
  | none => none
  | some _ =>
  let hash2 := c.hash2 hash1 msg.empty
  some { hs with hash := hash2, chainKey := ck3,
                 remoteIndex := msg.sender, state := .responseConsumed }

/-- Transport.ConsumeMessageResponse.  `table` is the index table
restricted to handshake entries (Lookup by msg.Receiver).  Returns the
updated table and whether a peer was returned. -/
def consumeMessageResponse (c : Crypto) (sid : StaticIdentity)
    (table : List (Nat × Handshake)) (msg : MessageResponse) :
    List (Nat × Handshake) × Bool :=
  if msg.type ≠ MessageResponseType then (table, false) else
  match lookupA msg.receiver table with
  | none => (table, false)
  | some hs =>
    match consumeMessageResponseHs c sid hs msg with
    | none => (table, false)
    | some hs' => (insertA msg.receiver hs' table, true)

/-- The result of Peer.BeginSymmetricSession: the zeroed handshake, the
rotated keypair slots, the newly created keypair, and the arguments of
the DeleteKeypair calls in call order. -/
structure BssResult where
  handshake : Handshake
  keypairs : Keypairs
  keypair : Keypair
  deleted : List (Option Keypair)
deriving DecidableEq, Repr

/-- Peer.BeginSymmetricSession.  `none` models the invalid-state error
(returned before any mutation).  The index-table remap
(SwapIndexForKeypair) is a side effect on the global table and is
reflected in the keypair's localIndex and the zeroed handshake. -/
def beginSymmetricSession (c : Crypto) (now : Time) (hs : Handshake)
    (kps : Keypairs) : Option BssResult :=
  let keys : Option (Bytes × Bytes × Bool) :=
    if hs.state = .responseConsumed then
      some ((c.kdf2 hs.chainKey emptyBytes).1,
            (c.kdf2 hs.chainKey emptyBytes).2, true)
    else if hs.state = .responseCreated then
      some ((c.kdf2 hs.chainKey emptyBytes).2,
            (c.kdf2 hs.chainKey emptyBytes).1, false)
    else none
  match keys with
  | none => none
  | some (sendKey, recvKey, isInitiator) =>
    let hsZ := { hs with chainKey := 0, hash := 0, localEphemeral := 0,
                         state := .zeroed }
    let keypair : Keypair :=
      { sendKey := sendKey, recvKey := recvKey, created := now,
        isInitiator := isInitiator, localIndex := hsZ.localIndex,
        remoteIndex := hsZ.remoteIndex }
    let hsZ2 := { hsZ with localIndex := 0 }
    if isInitiator then
      match kps.next with
      | some nxt =>
        some { handshake := hsZ2,
               keypairs := { kps with next := none, previous := some nxt,
                                      current := some keypair },
               keypair := keypair,
               deleted := [kps.current, kps.previous] }
      | none =>
        some { handshake := hsZ2,
               keypairs := { kps with previous := kps.current,
                                      current := some keypair },
               keypair := keypair,
               deleted := [kps.previous] }
    else
      some { handshake := hsZ2,
             keypairs := { kps with next := some keypair, previous := none },
             keypair := keypair,
             deleted := [kps.next, kps.previous] }

/-- Peer.ReceivedWithKeypair.  Returns the rotated slots, the arguments
of the DeleteKeypair calls, and the success flag; in the sequential
model the pre-lock and under-lock checks coincide. -/
def receivedWithKeypair (kps : Keypairs) (received : Keypair) :
    Keypairs × List (Option Keypair) × Bool :=
  if kps.next ≠ some received then (kps, [], false)
  else ({ kps with previous := kps.current, current := kps.next,
                   next := none },
        [kps.previous], true)

/-! ## Acceptance predicates

These spell out, over the decrypted intermediate values, the conditions
under which the consume routines return a peer; they follow the spec's
enumerations of rejection conditions. -/

/-- The conditions under which ConsumeMessageInitiation succeeds, with
the flood window as the code has it: the message is rejected when
now − lastInitiationConsumption ≤ HandshakeInitiationRate. -/
def cmiAccepts (c : Crypto) (sid : StaticIdentity)
    (peers : List (PubKey × Peer)) (now : Time) (msg : MessageInitiation) :
    Prop :=
  msg.type = MessageInitiationType ∧
  ∃ ss, c.dh sid.privateKey msg.ephemeral = some ss ∧
  ∃ peerPK, c.aeadOpen (c.kdf2 (c.kdf1 c.initialChainKey msg.ephemeral) ss).2
      msg.static (c.hash2 (c.hash2 c.initialHash sid.publicKey) msg.ephemeral)
      = some peerPK ∧
  ∃ peer, lookupA peerPK peers = some peer ∧ peer.isRunning = true ∧
    peer.handshake.precomputedStaticStatic ≠ 0 ∧
  ∃ ts, c.aeadOpen
      (c.kdf2 (c.kdf2 (c.kdf1 c.initialChainKey msg.ephemeral) ss).1
        peer.handshake.precomputedStaticStatic).2
      msg.timestamp
      (c.hash2 (c.hash2 (c.hash2 c.initialHash sid.publicKey) msg.ephemeral)
        msg.static) = some ts ∧
    tsAfter ts peer.handshake.lastTimestamp = true ∧
    HandshakeInitationRate < now - peer.handshake.lastInitiationConsumption

/-- The acceptance conditions as the spec sentence words them: the flood
rejection is now − lastInitiationConsumption < HandshakeInitiationRate,
strictly, so acceptance only requires the elapsed time to reach the
rate. -/
def cmiAcceptsSpecWording (c : Crypto) (sid : StaticIdentity)
    (peers : List (PubKey × Peer)) (now : Time) (msg : MessageInitiation) :
    Prop :=
  msg.type = MessageInitiationType ∧
  ∃ ss, c.dh sid.privateKey msg.ephemeral = some ss ∧
  ∃ peerPK, c.aeadOpen (c.kdf2 (c.kdf1 c.initialChainKey msg.ephemeral) ss).2
      msg.static (c.hash2 (c.hash2 c.initialHash sid.publicKey) msg.ephemeral)
      = some peerPK ∧
  ∃ peer, lookupA peerPK peers = some peer ∧ peer.isRunning = true ∧
    peer.handshake.precomputedStaticStatic ≠ 0 ∧
  ∃ ts, c.aeadOpen
      (c.kdf2 (c.kdf2 (c.kdf1 c.initialChainKey msg.ephemeral) ss).1
        peer.handshake.precomputedStaticStatic).2
      msg.timestamp
      (c.hash2 (c.hash2 (c.hash2 c.initialHash sid.publicKey) msg.ephemeral)
        msg.static) = some ts ∧
    tsAfter ts peer.handshake.lastTimestamp = true ∧
    HandshakeInitationRate ≤ now - peer.handshake.lastInitiationConsumption

/-- The state committed by a successful ConsumeMessageInitiation: the
peer found under the decrypted static key has (H, C, remoteIndex,
remoteEphemeral, lastTimestamp, lastInitiationConsumption) written and
the state set to InitiationConsumed, with the decrypted timestamp
strictly above the prior lastTimestamp. -/
def cmiCommit (c : Crypto) (sid : StaticIdentity)
    (peers : List (PubKey × Peer)) (now : Time) (msg : MessageInitiation)
    (peerPK : PubKey) : Prop :=
  ∃ ss peer ts,
    c.dh sid.privateKey msg.ephemeral = some ss ∧
    lookupA peerPK peers = some peer ∧
    c.aeadOpen
      (c.kdf2 (c.kdf2 (c.kdf1 c.initialChainKey msg.ephemeral) ss).1
        peer.handshake.precomputedStaticStatic).2
      msg.timestamp
      (c.hash2 (c.hash2 (c.hash2 c.initialHash sid.publicKey) msg.ephemeral)
        msg.static) = some ts ∧
    tsAfter ts peer.handshake.lastTimestamp = true ∧
    (consumeMessageInitiation c sid peers now msg).1 =
      insertA peerPK
        { peer with handshake := { peer.handshake with
            hash := c.hash2
              (c.hash2 (c.hash2 (c.hash2 c.initialHash sid.publicKey)
                msg.ephemeral) msg.static) msg.timestamp
            chainKey := (c.kdf2
              (c.kdf2 (c.kdf1 c.initialChainKey msg.ephemeral) ss).1
              peer.handshake.precomputedStaticStatic).1
            remoteIndex := msg.sender
            remoteEphemeral := msg.ephemeral
            lastTimestamp := ts
            lastInitiationConsumption := now
            state := .initiationConsumed } } peers

/-- The conditions under which ConsumeMessageResponse succeeds. -/
def cmrAccepts (c : Crypto) (sid : StaticIdentity)
    (table : List (Nat × Handshake)) (msg : MessageResponse) : Prop :=
  msg.type = MessageResponseType ∧
  ∃ hs, lookupA msg.receiver table = some hs ∧
    hs.state = .initiationCreated ∧
    ∃ ss1, c.dh hs.localEphemeral msg.ephemeral = some ss1 ∧
    ∃ ss2, c.dh sid.privateKey msg.ephemeral = some ss2 ∧
      (c.aeadOpen
        (c.kdf3 (c.kdf1 (c.kdf1 (c.kdf1 hs.chainKey msg.ephemeral) ss1) ss2)
          hs.presharedKey).2.2
        msg.empty
        (c.hash2 (c.hash2 hs.hash msg.ephemeral)
          (c.kdf3 (c.kdf1 (c.kdf1 (c.kdf1 hs.chainKey msg.ephemeral) ss1) ss2)
            hs.presharedKey).2.1)).isSome = true

/-- The outcome peerDirectory.AddPeer leaves behind when it errors: a
duplicate address is reported, yet the name mapping, the address-list
mapping, and every address registered before the duplicate remain in the
directory. -/
def addPeerErrOutcome (pd : PeerDirectory) (name : String) (pk : PubKey)
    (addrs : List Addr) : Prop :=
  ∃ pd' dup, addPeer pd name pk addrs = (pd', some dup) ∧
    (name ≠ "" → lookupA name pd'.peerNames = some pk) ∧
    lookupA pk pd'.peerAddresses = some addrs ∧
    ∃ front tail, addrs = front ++ dup :: tail ∧
      ∀ b ∈ front, lookupA b pd'.fromPeerAddress = some pk

/-! ## Concrete fixtures (used by witnesses and counterexamples) -/

/-- A concrete instantiation of the abstract primitives: decryption is
the identity on the ciphertext, DH always yields the blob 0. -/
def testC : Crypto :=
  { initialHash := 0, initialChainKey := 0,
    hash2 := fun _ _ => 0, kdf1 := fun _ _ => 0,
    kdf2 := fun _ _ => (0, 0), kdf3 := fun _ _ => (0, 0, 0),
    dh := fun _ _ => some 0, pub := fun x => x,
    aeadSeal := fun _ p _ => p, aeadOpen := fun _ ct _ => some ct }

def testHs : Handshake :=
  { state := .zeroed, hash := 0, chainKey := 0, presharedKey := 0,
    localEphemeral := 0, localIndex := 4, remoteIndex := 6,
    remoteStatic := 7, remoteEphemeral := 8, precomputedStaticStatic := 5,
    lastTimestamp := 3, lastInitiationConsumption := 100,
    lastSentHandshake := 0 }

def testPeer : Peer := { handshake := testHs, isRunning := true }

def testPeers : List (PubKey × Peer) := [(7, testPeer)]

def testSid : StaticIdentity := { privateKey := 21, publicKey := 22 }

def testMsgI : MessageInitiation :=
  { type := 1, sender := 11, ephemeral := 2, static := 7, timestamp := 9,
    mac1 := 0, mac2 := 0 }

def testMsgR : MessageResponse :=
  { type := 2, sender := 13, receiver := 4, ephemeral := 2, empty := 0,
    mac1 := 0, mac2 := 0 }

def testHsIC : Handshake := { testHs with state := .initiationCreated }

def testTableR : List (Nat × Handshake) := [(4, testHsIC)]

def testKp (n : Nat) : Keypair :=
  { sendKey := n, recvKey := n, created := 0, isInitiator := false,
    localIndex := n, remoteIndex := n }

def testKps : Keypairs :=
  { previous := some (testKp 1), current := some (testKp 2),
    next := some (testKp 3) }

def testHsRC : Handshake := { testHs with state := .responseConsumed }

/-- The result of beginSymmetricSession on the fixture initiator
handshake. -/
def testBss : BssResult :=
  { handshake := { testHs with
                   state := .zeroed, chainKey := 0, hash := 0,
                   localEphemeral := 0, localIndex := 0 },
    keypairs := { previous := some (testKp 3),
                  current := some { sendKey := 0, recvKey := 0, created := 0,
                                    isInitiator := true, localIndex := 4,
                                    remoteIndex := 6 },
                  next := none },
    keypair := { sendKey := 0, recvKey := 0, created := 0,
                 isInitiator := true, localIndex := 4, remoteIndex := 6 },
    deleted := [some (testKp 2), some (testKp 1)] }

def testHsPssZero : Handshake :=
  { testHs with precomputedStaticStatic := 0 }

def testHsICd : Handshake := { testHs with state := .initiationConsumed }

def testPd : PeerDirectory :=
  { peerNames := [], peerAddresses := [], fromPeerAddress := [(5, 1)] }

/-! ## Association-list lemmas -/

theorem lookupA_insertA_self {α β : Type} [DecidableEq α] (k : α) (v : β)
    (m : List (α × β)) : lookupA k (insertA k v m) = some v := by
  induction m with
  | nil => simp [insertA, lookupA]
  | cons kv rest ih =>
      obtain ⟨k', v'⟩ := kv
      by_cases h : k = k' <;> simp [insertA, lookupA, h, ih]

theorem lookupA_insertA {α β : Type} [DecidableEq α] (k k' : α) (v : β)
    (m : List (α × β)) :
    lookupA k (insertA k' v m) = if k = k' then some v else lookupA k m := by
  induction m with
  | nil => by_cases h : k = k' <;> simp [insertA, lookupA, h]
  | cons kv rest ih =>
      obtain ⟨a, b⟩ := kv
      by_cases h1 : k' = a
      · subst h1
        by_cases h2 : k = k' <;> simp [insertA, lookupA, h2]
      · by_cases h2 : k = a
        · subst h2
          have h3 : ¬ k = k' := fun h => h1 h.symm
          simp [insertA, lookupA, h1, h3]
        · simp [insertA, lookupA, h1, h2, ih]

theorem addPeerLoop_preserve (pk : PubKey) (b : Addr)
    (l : List Addr) (m : List (Addr × PubKey))
    (hb : lookupA b m = some pk) :
    lookupA b (addPeerLoop pk m l).1 = some pk := by
  induction l generalizing m with
  | nil => simpa [addPeerLoop] using hb
  | cons a rest ih =>
      by_cases h : (lookupA a m).isSome
      · simpa [addPeerLoop, h] using hb
      · have hb' : lookupA b (insertA a pk m) = some pk := by
          rw [lookupA_insertA]
          by_cases hba : b = a <;> simp [hba, hb]
        simpa [addPeerLoop, h] using ih _ hb'

theorem addPeerLoop_err_some (pk : PubKey) (l : List Addr)
    (m : List (Addr × PubKey))
    (h : ∃ a ∈ l, (lookupA a m).isSome = true) :
    (addPeerLoop pk m l).2.isSome = true := by
  induction l generalizing m with
  | nil => simp at h
  | cons a rest ih =>
      by_cases ha : (lookupA a m).isSome
      · simp [addPeerLoop, ha]
      · obtain ⟨a', ha', hlk⟩ := h
        rcases List.mem_cons.mp ha' with rfl | hmem
        · exact absurd hlk ha
        · have hlk' : (lookupA a' (insertA a pk m)).isSome = true := by
            rw [lookupA_insertA]
            by_cases haa : a' = a <;> simp [haa, hlk]
          simpa [addPeerLoop, ha] using ih _ ⟨a', hmem, hlk'⟩

theorem addPeerLoop_err_spec (pk : PubKey) (l : List Addr)
    (m m' : List (Addr × PubKey)) (dup : Addr)
    (h : addPeerLoop pk m l = (m', some dup)) :
    ∃ front tail, l = front ++ dup :: tail ∧
      ∀ b ∈ front, lookupA b m' = some pk := by
  induction l generalizing m with
  | nil => simp [addPeerLoop] at h
  | cons a rest ih =>
      by_cases ha : (lookupA a m).isSome
      · simp [addPeerLoop, ha] at h
        exact ⟨[], rest, by simp [h.2.symm], by simp⟩
      · simp only [addPeerLoop, ha, if_false, Bool.false_eq_true] at h
        obtain ⟨front, tail, hft, hreg⟩ := ih _ h
        refine ⟨a :: front, tail, by simp [hft], ?_⟩
        intro b hbmem
        rcases List.mem_cons.mp hbmem with rfl | hmem
        · have h1 : lookupA b (insertA b pk m) = some pk :=
            lookupA_insertA_self b pk m
          have := addPeerLoop_preserve pk b rest (insertA b pk m) h1
          rwa [h] at this
        · exact hreg b hmem

/-! ## Claim C8: wire message sizes -/

/-- C8: the wire message sizes equal the spec's layout sums: initiation
148 bytes, response 92 bytes, cookie reply 64 bytes; the transport
header is 16 bytes with the receiver at offset 4, the 8-byte counter at
offset 8 and the content at offset 16, and an empty transport message is
the header plus the 16-byte tag. -/
theorem messageSizes_spec :
    MessageInitiationSize = messageInitiationLayout ∧
    MessageResponseSize = messageResponseLayout ∧
    MessageCookieReplySize = messageCookieReplyLayout ∧
    MessageTransportHeaderSize = messageTransportHeaderLayout ∧
    MessageTransportOffsetReceiver = 4 ∧
    MessageTransportOffsetCounter = 8 ∧
    MessageTransportOffsetContent = MessageTransportHeaderSize ∧
    MessageTransportSize = MessageTransportHeaderSize + poly1305TagSize := by
  decide

/-! ## Claim C9: config kinds -/

/-- C9: GetConfigByKind returns a Config exactly when the kind string is
"Config" and an error otherwise, and every Config reports kind "Config"
and API version "noisysockets.github.com/v1alpha1". -/
theorem getConfigByKind_spec (k : String) (cfg : Config) :
    ((∃ c0, GetConfigByKind k = .ok c0) ↔ k = "Config") ∧
    cfg.GetKind = "Config" ∧
    cfg.GetAPIVersion = "noisysockets.github.com/v1alpha1" := by
  refine ⟨?_, rfl, rfl⟩
  by_cases h : k = "Config" <;> simp [GetConfigByKind, h]

/-! ## Claim C5: ReceivedWithKeypair -/

/-- C5: ReceivedWithKeypair returns false and changes nothing whenever
the next slot does not hold the received keypair; when it does, previous
becomes the old current, current becomes the received keypair, next is
cleared, the old previous keypair is deleted, and it returns true. -/
theorem receivedWithKeypair_spec (kps : Keypairs) (received : Keypair) :
    (kps.next ≠ some received →
        receivedWithKeypair kps received = (kps, [], false))
  ∧ (kps.next = some received →
        receivedWithKeypair kps received =
          ({ kps with previous := kps.current, current := some received,
                      next := none }, [kps.previous], true)) := by
  constructor
  · intro h
    simp [receivedWithKeypair, h]
  · intro h
    simp [receivedWithKeypair, h]

theorem receivedWithKeypair_spec_w :
    receivedWithKeypair testKps (testKp 3) =
      ({ testKps with previous := testKps.current, current := some (testKp 3),
                      next := none }, [testKps.previous], true) :=
  (receivedWithKeypair_spec testKps (testKp 3)).2 rfl

/-! ## Claim C2: BeginSymmetricSession keypair rotation -/

/-- C2: after BeginSymmetricSession in state ResponseConsumed
(initiator), if next held a keypair then previous becomes it, next is
cleared and the old current is deleted, else previous becomes the old
current and the old previous is deleted; current becomes the new keypair
in both cases.  In state ResponseCreated (responder), next becomes the
new keypair, the prior next and prior previous are deleted, previous is
cleared, and current is unchanged. -/
theorem beginSymmetricSession_rotation (c : Crypto) (now : Time)
    (hs : Handshake) (kps : Keypairs) (r : BssResult)
    (h : beginSymmetricSession c now hs kps = some r) :
    (hs.state = .responseConsumed →
      (∀ k, kps.next = some k →
         r.keypairs.previous = some k ∧ r.keypairs.next = none ∧
         kps.current ∈ r.deleted) ∧
      (kps.next = none →
         r.keypairs.previous = kps.current ∧ kps.previous ∈ r.deleted) ∧
      r.keypairs.current = some r.keypair)
  ∧ (hs.state = .responseCreated →
      r.keypairs.next = some r.keypair ∧ kps.next ∈ r.deleted ∧
      r.keypairs.previous = none ∧ kps.previous ∈ r.deleted ∧
      r.keypairs.current = kps.current) := by
  constructor
  · intro hstate
    cases hnx : kps.next with
    | some k0 =>
        simp [beginSymmetricSession, hstate, hnx] at h
        subst h
        refine ⟨fun k hk => ?_, fun hc => by simp at hc, rfl⟩
        obtain rfl : k0 = k := by injection hk
        exact ⟨rfl, rfl, by simp⟩
    | none =>
        simp [beginSymmetricSession, hstate, hnx] at h
        subst h
        exact ⟨fun k hk => by simp at hk, fun _ => ⟨rfl, by simp⟩, rfl⟩
  · intro hstate
    simp [beginSymmetricSession, hstate] at h
    subst h
    exact ⟨rfl, by simp, rfl, by simp, rfl⟩

theorem beginSymmetricSession_rotation_w :
    testBss.keypairs.current = some testBss.keypair ∧
    some (testKp 2) ∈ testBss.deleted := by
  have h := beginSymmetricSession_rotation testC 0 testHsRC testKps testBss
    (by decide)
  exact ⟨(h.1 rfl).2.2, ((h.1 rfl).1 (testKp 3) rfl).2.2⟩

/-! ## Claim C3: BeginSymmetricSession key derivation and zeroing -/

/-- C3: BeginSymmetricSession in state ResponseConsumed derives
(sendKey, recvKey) = KDF2(chainKey, empty) in that order and marks the
keypair initiator; in state ResponseCreated the two outputs are assigned
swapped and the keypair marked responder; in both success cases the
handshake's chain key, hash and local ephemeral are zeroed. -/
theorem beginSymmetricSession_keys (c : Crypto) (now : Time)
    (hs : Handshake) (kps : Keypairs) :
    (hs.state = .responseConsumed →
        ∃ r, beginSymmetricSession c now hs kps = some r)
  ∧ (hs.state = .responseCreated →
        ∃ r, beginSymmetricSession c now hs kps = some r)
  ∧ (∀ r, beginSymmetricSession c now hs kps = some r →
      (hs.state = .responseConsumed →
        r.keypair.sendKey = (c.kdf2 hs.chainKey emptyBytes).1 ∧
        r.keypair.recvKey = (c.kdf2 hs.chainKey emptyBytes).2 ∧
        r.keypair.isInitiator = true) ∧
      (hs.state = .responseCreated →
        r.keypair.sendKey = (c.kdf2 hs.chainKey emptyBytes).2 ∧
        r.keypair.recvKey = (c.kdf2 hs.chainKey emptyBytes).1 ∧
        r.keypair.isInitiator = false) ∧
      r.handshake.chainKey = 0 ∧ r.handshake.hash = 0 ∧
      r.handshake.localEphemeral = 0) := by
  refine ⟨?_, ?_, ?_⟩
  · intro hstate
    cases hnx : kps.next <;> simp [beginSymmetricSession, hstate, hnx]
  · intro hstate
    simp [beginSymmetricSession, hstate]
  · intro r h
    cases hstate : hs.state with
    | zeroed => simp [beginSymmetricSession, hstate] at h
    | initiationCreated => simp [beginSymmetricSession, hstate] at h
    | initiationConsumed => simp [beginSymmetricSession, hstate] at h
    | responseConsumed =>
        cases hnx : kps.next with
        | some k0 =>
            simp [beginSymmetricSession, hstate, hnx] at h
            subst h
            exact ⟨fun _ => ⟨rfl, rfl, rfl⟩,
                   fun hc => by simp [hstate] at hc, rfl, rfl, rfl⟩
        | none =>
            simp [beginSymmetricSession, hstate, hnx] at h
            subst h
            exact ⟨fun _ => ⟨rfl, rfl, rfl⟩,
                   fun hc => by simp [hstate] at hc, rfl, rfl, rfl⟩
    | responseCreated =>
        simp [beginSymmetricSession, hstate] at h
        subst h
        exact ⟨fun hc => by simp [hstate] at hc,
               fun _ => ⟨rfl, rfl, rfl⟩, rfl, rfl, rfl⟩

theorem beginSymmetricSession_keys_w :
    testBss.keypair.sendKey = (testC.kdf2 testHsRC.chainKey emptyBytes).1 ∧
    testBss.handshake.chainKey = 0 := by
  have h := (beginSymmetricSession_keys testC 0 testHsRC testKps).2.2 testBss
    (by decide)
  exact ⟨(h.1 rfl).1, h.2.2.1⟩

/-! ## Claim C6: CreateMessageInitiation -/

/-- C6: CreateMessageInitiation fails with InvalidPublicKey whenever the
precomputed static-static secret is all-zero, leaving the state as it
was (in particular not setting it to InitiationCreated); on success it
deletes the prior localIndex from the index table, allocates the fresh
sender index as both msg.Sender and handshake.localIndex, and
transitions the state to InitiationCreated. -/
theorem createMessageInitiation_spec (c : Crypto) (sid : StaticIdentity)
    (eph ts : Bytes) (newIndex ownerId : Nat) (table : List (Nat × Nat))
    (hs : Handshake) :
    (hs.precomputedStaticStatic = 0 →
      ∀ ss, c.dh eph hs.remoteStatic = some ss →
        (createMessageInitiation c sid eph ts newIndex ownerId table hs).2.2 =
            .error .invalidPublicKey ∧
        (createMessageInitiation c sid eph ts newIndex ownerId table hs).1.state
            = hs.state ∧
        (createMessageInitiation c sid eph ts newIndex ownerId table hs).2.1
            = table)
  ∧ (∀ msg,
      (createMessageInitiation c sid eph ts newIndex ownerId table hs).2.2 =
          .ok msg →
        msg.sender = newIndex ∧
        (createMessageInitiation c sid eph ts newIndex ownerId table hs).1.localIndex
            = newIndex ∧
        (createMessageInitiation c sid eph ts newIndex ownerId table hs).1.state
            = .initiationCreated ∧
        (createMessageInitiation c sid eph ts newIndex ownerId table hs).2.1
            = insertA newIndex ownerId (eraseA hs.localIndex table)) := by
  constructor
  · intro hz ss hss
    simp [createMessageInitiation, hss, hz]
  · intro msg hmsg
    cases hss : c.dh eph hs.remoteStatic with
    | none => simp [createMessageInitiation, hss] at hmsg
    | some ss =>
        by_cases hz : hs.precomputedStaticStatic = 0
        · simp [createMessageInitiation, hss, hz] at hmsg
        · simp only [createMessageInitiation, hss, hz] at hmsg ⊢
          simp at hmsg
          subst hmsg
          simp [createMessageInitiation, hss, hz]

theorem createMessageInitiation_spec_w :
    (createMessageInitiation testC testSid 30 9 77 88 [] testHsPssZero).2.2 =
        .error .invalidPublicKey ∧
    (createMessageInitiation testC testSid 30 9 77 88 [] testHs).1.state =
        .initiationCreated := by
  constructor
  · exact ((createMessageInitiation_spec testC testSid 30 9 77 88 []
      testHsPssZero).1 rfl 0 rfl).1
  · exact ((createMessageInitiation_spec testC testSid 30 9 77 88 [] testHs).2
      { type := 1, sender := 77, ephemeral := 30, static := 22, timestamp := 9,
        mac1 := 0, mac2 := 0 } rfl).2.2.1

/-! ## Claim C7: CreateMessageResponse -/

/-- C7: CreateMessageResponse fails, leaving everything unchanged, when
the handshake state is not InitiationConsumed; when it is, the prior
localIndex is deleted from the index table and a new one allocated, and
on success the state transitions to ResponseCreated. -/
theorem createMessageResponse_spec (c : Crypto) (eph : Bytes)
    (newIndex ownerId : Nat) (table : List (Nat × Nat)) (hs : Handshake) :
    (hs.state ≠ .initiationConsumed →
        createMessageResponse c eph newIndex ownerId table hs =
          (hs, table, .error .wrongState))
  ∧ (hs.state = .initiationConsumed →
        (createMessageResponse c eph newIndex ownerId table hs).2.1 =
            insertA newIndex ownerId (eraseA hs.localIndex table) ∧
        (createMessageResponse c eph newIndex ownerId table hs).1.localIndex =
            newIndex ∧
        (∀ msg,
          (createMessageResponse c eph newIndex ownerId table hs).2.2 =
              .ok msg →
          (createMessageResponse c eph newIndex ownerId table hs).1.state =
              .responseCreated)) := by
  constructor
  · intro hstate
    simp [createMessageResponse, hstate]
  · intro hstate
    cases hss1 : c.dh eph hs.remoteEphemeral with
    | none => simp [createMessageResponse, hstate, hss1]
    | some ss1 =>
        cases hss2 : c.dh eph hs.remoteStatic with
        | none => simp [createMessageResponse, hstate, hss1, hss2]
        | some ss2 => simp [createMessageResponse, hstate, hss1, hss2]

theorem createMessageResponse_spec_w :
    createMessageResponse testC 30 77 88 [] testHs =
        (testHs, [], .error .wrongState) ∧
    (createMessageResponse testC 30 77 88 [] testHsICd).1.state =
        .responseCreated := by
  constructor
  · exact (createMessageResponse_spec testC 30 77 88 [] testHs).1 (by decide)
  · exact ((createMessageResponse_spec testC 30 77 88 [] testHsICd).2 rfl).2.2
      { type := 2, sender := 77, receiver := 6, ephemeral := 30, empty := 0,
        mac1 := 0, mac2 := 0 } rfl

/-! ## Claim C4: ConsumeMessageResponse -/

/-- C4: ConsumeMessageResponse succeeds exactly when the message has
type 2, the receiver index resolves to a handshake in state
InitiationCreated, both DH computations succeed, and the AEAD
authentication of the empty payload passes; on any failure the table is
unchanged; on success H, C and remoteIndex = msg.Sender are committed
and the state becomes ResponseConsumed, all other fields unchanged. -/
theorem consumeMessageResponse_spec (c : Crypto) (sid : StaticIdentity)
    (table : List (Nat × Handshake)) (msg : MessageResponse) :
    ((consumeMessageResponse c sid table msg).2 = true ↔
        cmrAccepts c sid table msg)
  ∧ ((consumeMessageResponse c sid table msg).2 = false →
        (consumeMessageResponse c sid table msg).1 = table)
  ∧ (∀ hs ss1 ss2 hs', lookupA msg.receiver table = some hs →
        c.dh hs.localEphemeral msg.ephemeral = some ss1 →
        c.dh sid.privateKey msg.ephemeral = some ss2 →
        consumeMessageResponseHs c sid hs msg = some hs' →
        hs' = { hs with
          hash := c.hash2 (c.hash2 (c.hash2 hs.hash msg.ephemeral)
            ((c.kdf3 (c.kdf1 (c.kdf1 (c.kdf1 hs.chainKey msg.ephemeral) ss1)
              ss2) hs.presharedKey).2.1)) msg.empty
          chainKey := (c.kdf3 (c.kdf1 (c.kdf1 (c.kdf1 hs.chainKey
            msg.ephemeral) ss1) ss2) hs.presharedKey).1
          remoteIndex := msg.sender
          state := .responseConsumed } ∧
        (msg.type = MessageResponseType →
          (consumeMessageResponse c sid table msg).1 =
            insertA msg.receiver hs' table)) := by
  refine ⟨?_, ?_, ?_⟩
  · by_cases ht : msg.type = MessageResponseType
    case neg => simp [consumeMessageResponse, cmrAccepts, ht]
    case pos =>
      cases hlk : lookupA msg.receiver table with
      | none => simp [consumeMessageResponse, cmrAccepts, ht, hlk]
      | some hs =>
        by_cases hst : hs.state = .initiationCreated
        case neg =>
          simp [consumeMessageResponse, consumeMessageResponseHs, cmrAccepts,
            ht, hlk, hst]
        case pos =>
          cases hss1 : c.dh hs.localEphemeral msg.ephemeral with
          | none =>
              simp [consumeMessageResponse, consumeMessageResponseHs,
                cmrAccepts, ht, hlk, hst, hss1]
          | some ss1 =>
            cases hss2 : c.dh sid.privateKey msg.ephemeral with
            | none =>
                simp [consumeMessageResponse, consumeMessageResponseHs,
                  cmrAccepts, ht, hlk, hst, hss1, hss2]
            | some ss2 =>
              cases hop : c.aeadOpen
                  (c.kdf3 (c.kdf1 (c.kdf1 (c.kdf1 hs.chainKey msg.ephemeral)
                    ss1) ss2) hs.presharedKey).2.2
                  msg.empty
                  (c.hash2 (c.hash2 hs.hash msg.ephemeral)
                    (c.kdf3 (c.kdf1 (c.kdf1 (c.kdf1 hs.chainKey msg.ephemeral)
                      ss1) ss2) hs.presharedKey).2.1) with
              | none =>
                  simp [consumeMessageResponse, consumeMessageResponseHs,
                    cmrAccepts, ht, hlk, hst, hss1, hss2, hop]
              | some pt =>
                  simp [consumeMessageResponse, consumeMessageResponseHs,
                    cmrAccepts, ht, hlk, hst, hss1, hss2, hop]
  · intro h2
    by_cases ht : msg.type = MessageResponseType
    case neg => simp [consumeMessageResponse, ht]
    case pos =>
      cases hlk : lookupA msg.receiver table with
      | none => simp [consumeMessageResponse, ht, hlk]
      | some hs =>
        cases hrun : consumeMessageResponseHs c sid hs msg with
        | none => simp [consumeMessageResponse, ht, hlk, hrun]
        | some hs' =>
            simp [consumeMessageResponse, ht, hlk, hrun] at h2
  · intro hs ss1 ss2 hs' hlk hss1 hss2 hrun
    by_cases hst : hs.state = .initiationCreated
    case neg => simp [consumeMessageResponseHs, hst] at hrun
    case pos =>
      cases hop : c.aeadOpen
          (c.kdf3 (c.kdf1 (c.kdf1 (c.kdf1 hs.chainKey msg.ephemeral)
            ss1) ss2) hs.presharedKey).2.2
          msg.empty
          (c.hash2 (c.hash2 hs.hash msg.ephemeral)
            (c.kdf3 (c.kdf1 (c.kdf1 (c.kdf1 hs.chainKey msg.ephemeral)
              ss1) ss2) hs.presharedKey).2.1) with
      | none =>
          simp [consumeMessageResponseHs, hst, hss1, hss2, hop] at hrun
      | some pt =>
          simp [consumeMessageResponseHs, hst, hss1, hss2, hop] at hrun
          constructor
          · exact hrun.symm
          · intro ht
            have hrun' : consumeMessageResponseHs c sid hs msg = some hs' := by
              simp [consumeMessageResponseHs, hst, hss1, hss2, hop, hrun]
            simp [consumeMessageResponse, ht, hlk, hrun']

theorem consumeMessageResponse_spec_w :
    (consumeMessageResponse testC testSid testTableR
      { testMsgR with type := 3 }).1 = testTableR :=
  (consumeMessageResponse_spec testC testSid testTableR
    { testMsgR with type := 3 }).2.1 (by decide)

/-! ## Claim C1: ConsumeMessageInitiation -/

/-- C1 (amended): ConsumeMessageInitiation returns a peer exactly when
the message has type 1, the ephemeral-static DH succeeds, the static
AEAD opens, the decrypted static key resolves to a running peer, the
precomputed static-static secret is nonzero, the timestamp AEAD opens,
the decrypted timestamp is strictly after lastTimestamp, and strictly
more than HandshakeInitiationRate has elapsed since
lastInitiationConsumption (the code rejects when the elapsed time is ≤
the rate, not only when it is < the rate); a rejected message leaves
the peer table unchanged, and a successful one commits (H, C,
remoteIndex, remoteEphemeral, lastTimestamp,
lastInitiationConsumption) and sets the state to InitiationConsumed,
with the decrypted timestamp strictly above the prior lastTimestamp. -/
theorem consumeMessageInitiation_spec (c : Crypto) (sid : StaticIdentity)
    (peers : List (PubKey × Peer)) (now : Time) (msg : MessageInitiation) :
    ((consumeMessageInitiation c sid peers now msg).2.isSome = true ↔
        cmiAccepts c sid peers now msg)
  ∧ ((consumeMessageInitiation c sid peers now msg).2 = none →
        (consumeMessageInitiation c sid peers now msg).1 = peers)
  ∧ (∀ peerPK, (consumeMessageInitiation c sid peers now msg).2 = some peerPK →
        cmiCommit c sid peers now msg peerPK) := by
  by_cases ht : msg.type = MessageInitiationType
  case neg =>
    simp [consumeMessageInitiation, cmiAccepts, cmiCommit, ht]
  case pos =>
  cases hdh : c.dh sid.privateKey msg.ephemeral with
  | none => simp [consumeMessageInitiation, cmiAccepts, cmiCommit, ht, hdh]
  | some ss =>
  cases hop1 : c.aeadOpen (c.kdf2 (c.kdf1 c.initialChainKey msg.ephemeral) ss).2
      msg.static (c.hash2 (c.hash2 c.initialHash sid.publicKey) msg.ephemeral)
      with
  | none =>
      simp [consumeMessageInitiation, cmiAccepts, cmiCommit, ht, hdh, hop1]
  | some peerPK0 =>
  cases hlk : lookupA peerPK0 peers with
  | none =>
      simp [consumeMessageInitiation, cmiAccepts, cmiCommit, ht, hdh, hop1,
        hlk]
  | some peer0 =>
  by_cases hrun : peer0.isRunning = false
  case pos =>
      simp [consumeMessageInitiation, cmiAccepts, cmiCommit, ht, hdh, hop1,
        hlk, hrun]
  case neg =>
  rw [Bool.not_eq_false] at hrun
  by_cases hz : peer0.handshake.precomputedStaticStatic = 0
  case pos =>
      simp [consumeMessageInitiation, cmiAccepts, cmiCommit, ht, hdh, hop1,
        hlk, hrun, hz]
  case neg =>
  cases hop2 : c.aeadOpen
      (c.kdf2 (c.kdf2 (c.kdf1 c.initialChainKey msg.ephemeral) ss).1
        peer0.handshake.precomputedStaticStatic).2
      msg.timestamp
      (c.hash2 (c.hash2 (c.hash2 c.initialHash sid.publicKey) msg.ephemeral)
        msg.static) with
  | none =>
      simp [consumeMessageInitiation, cmiAccepts, cmiCommit, ht, hdh, hop1,
        hlk, hrun, hz, hop2]
  | some ts0 =>
  by_cases hts : tsAfter ts0 peer0.handshake.lastTimestamp = true
  case neg =>
      simp [consumeMessageInitiation, cmiAccepts, cmiCommit, ht, hdh, hop1,
        hlk, hrun, hz, hop2, hts]
  case pos =>
  by_cases hfl :
      now - peer0.handshake.lastInitiationConsumption ≤ HandshakeInitationRate
  case pos =>
      have hnlt : ¬ (HandshakeInitationRate <
          now - peer0.handshake.lastInitiationConsumption) := not_lt.mpr hfl
      simp [consumeMessageInitiation, cmiAccepts, cmiCommit, ht, hdh, hop1,
        hlk, hrun, hz, hop2, hts, hfl, hnlt]
  case neg =>
  have hlt : peer0.handshake.lastInitiationConsumption < now := by
    have h1 : HandshakeInitationRate <
        now - peer0.handshake.lastInitiationConsumption := not_le.mp hfl
    have h0 : (0 : Int) < HandshakeInitationRate := by
      norm_num [HandshakeInitationRate]
    exact sub_pos.mp (lt_trans h0 h1)
  have hta : timeAfter now peer0.handshake.lastInitiationConsumption = true :=
    decide_eq_true hlt
  refine ⟨?_, ?_, ?_⟩
  · simp only [consumeMessageInitiation, ht, hdh, hop1, hlk, hrun, hz, hop2,
      hts, hfl, hta]
    simp [cmiAccepts, ht, hdh, hop1, hlk, hrun, hz, hop2, hts]
    exact not_le.mp hfl
  · intro hcontra
    simp only [consumeMessageInitiation, ht, hdh, hop1, hlk, hrun, hz, hop2,
      hts, hfl, hta] at hcontra
    simp at hcontra
  · intro peerPK hpk
    simp only [consumeMessageInitiation, ht, hdh, hop1, hlk, hrun, hz, hop2,
      hts, hfl, hta] at hpk
    simp at hpk
    subst hpk
    refine ⟨ss, peer0, ts0, hdh, hlk, hop2, hts, ?_⟩
    simp only [consumeMessageInitiation, ht, hdh, hop1, hlk, hrun, hz, hop2,
      hts, hfl, hta]
    simp [hts, hta]

/-- C1 counterexample to the claim as worded: at the exact flood
boundary, where now − lastInitiationConsumption equals
HandshakeInitiationRate, none of the claim's listed rejection
conditions holds (in particular the elapsed time is not strictly below
the rate), yet the code rejects the message. -/
theorem consumeMessageInitiation_flood_boundary :
    cmiAcceptsSpecWording testC testSid testPeers
      (100 + HandshakeInitationRate) testMsgI ∧
    (consumeMessageInitiation testC testSid testPeers
      (100 + HandshakeInitationRate) testMsgI).2 = none := by
  constructor
  · exact ⟨rfl, 0, rfl, 7, rfl, testPeer, rfl, rfl, by decide, 9, rfl,
      by decide, by decide⟩
  · decide

theorem consumeMessageInitiation_spec_w :
    cmiCommit testC testSid testPeers 200000000 testMsgI 7 :=
  (consumeMessageInitiation_spec testC testSid testPeers 200000000
    testMsgI).2.2 7 (by decide)

/-! ## Claim C10: peerDirectory.AddPeer -/

/-- C10: AddPeer returns an error whenever some address in the list is
already registered (regardless of which key it is registered to, so
re-adding a peer with a non-empty address list fails), and the update is
not atomic: after the error the name mapping, the key-to-address-list
mapping, and every address registered before the duplicate remain in the
directory. -/
theorem addPeer_nonatomic (pd : PeerDirectory) (name : String) (pk : PubKey)
    (addrs : List Addr)
    (h : ∃ a ∈ addrs, (lookupA a pd.fromPeerAddress).isSome = true) :
    addPeerErrOutcome pd name pk addrs := by
  rcases hL : addPeerLoop pk pd.fromPeerAddress addrs with ⟨m', e⟩
  have hsome : e.isSome = true := by
    have h1 := addPeerLoop_err_some pk addrs pd.fromPeerAddress h
    rw [hL] at h1
    exact h1
  obtain ⟨dup, rfl⟩ := Option.isSome_iff_exists.mp hsome
  obtain ⟨front, tail, hft, hreg⟩ :=
    addPeerLoop_err_spec pk addrs pd.fromPeerAddress m' dup hL
  refine ⟨{ peerNames := if name ≠ "" then insertA name pk pd.peerNames
              else pd.peerNames,
            peerAddresses := insertA pk addrs pd.peerAddresses,
            fromPeerAddress := m' },
          dup, ?_, ?_, ?_, front, tail, hft, hreg⟩
  · simp [addPeer, hL]
  · intro hn
    simp only [hn, ne_eq, not_false_eq_true, if_true]
    exact lookupA_insertA_self name pk pd.peerNames
  · exact lookupA_insertA_self pk addrs pd.peerAddresses

theorem addPeer_nonatomic_w : addPeerErrOutcome testPd "n" 2 [4, 5] :=
  addPeer_nonatomic testPd "n" 2 [4, 5] ⟨5, by decide, by decide⟩

end Noisy
